import Mathlib

/-!
# clvk kernel binding layer (`src/kernel.cpp`)

A shallow embedding of `cvk_kernel_pipeline_cache` and `cvk_kernel` and the
properties of the pipeline cache, the descriptor-set layout builder, kernel
initialisation, `set_arg` and `setup_descriptor_set`.

Conventions of the embedding.

* Handles (`VkPipeline`, `VkDescriptorSet`, slots, positions, offsets) are natural
  numbers; nothing in the code does arithmetic on them that could wrap.
* Backend calls (`vkCreateComputePipelines`, `vkAllocateDescriptorSets`,
  `vkCreateDescriptorSetLayout`, `cvk_mem::create`, ...) are not part of the code under
  study: the value the backend gives back is an argument of the embedded function.
* A function returns `Option`; `none` stands for undefined behaviour of the C++ code
  (indexing a vector out of range, dereferencing a null pointer).
* Scalar buffers are objects in a store `mem`; a `std::unique_ptr<cvk_mem>` is
  `Option Nat`, a handle into `mem` or null.  `cvk_mem::create` makes a new object, so a
  new handle.  The destruction of objects is not modelled: the store only grows.
* Calls on objects the kernel does not own (`mem->retain()`, `vkUpdateDescriptorSets`)
  are recorded in a trace of effects.  Diagnostic logging is not modelled.
* The mutexes serialise the calls; every embedded function is one critical section.
-/

namespace Clvk

/-! ## Constants and plain types -/

abbrev VkResult := Int
abbrev cl_int := Int
abbrev VkPipeline := Nat

def VK_SUCCESS : VkResult := 0
def VK_ERROR_OUT_OF_HOST_MEMORY : VkResult := -1
def VK_ERROR_OUT_OF_POOL_MEMORY : VkResult := -1000069000
def VK_NULL_HANDLE : Nat := 0
def CL_SUCCESS : cl_int := 0
def CL_OUT_OF_RESOURCES : cl_int := -5
def CL_INVALID_VALUE : cl_int := -30
def CL_INVALID_PROGRAM : cl_int := -44
def CL_INVALID_KERNEL_NAME : cl_int := -46

/-- Size of `sizeof(cvk_mem*)` on the 64-bit targets clvk builds for. -/
def sizeof_ptr : Nat := 8

inductive VkDescriptorType
  | SAMPLER
  | SAMPLED_IMAGE
  | STORAGE_IMAGE
  | UNIFORM_BUFFER
  | STORAGE_BUFFER
  | MAX_ENUM
  deriving DecidableEq, Repr

/-- Modelled from the spec: `kernel_argument_kind` is declared in a header that is not
among the sources; the seven kinds are the ones the `switch` statements of kernel.cpp
name (`local_` is the kind `local`). -/
inductive kernel_argument_kind
  | buffer
  | pod
  | pod_ubo
  | ro_image
  | wo_image
  | sampler
  | local_
  deriving DecidableEq, Repr

/-- Modelled from the spec: `kernel_argument` is declared in a header that is not among
the sources; these are the fields kernel.cpp reads (`pos`, `binding`, `offset`, `kind`). -/
structure kernel_argument where
  pos : Nat
  binding : Nat
  offset : Nat
  kind : kernel_argument_kind
  deriving DecidableEq, Repr

/-- Modelled from the spec: `kernel_argument::is_pod` (header not among the sources): the
argument is a scalar, of either scalar kind. -/
def kernel_argument.is_pod (arg : kernel_argument) : Bool :=
  arg.kind == kernel_argument_kind.pod || arg.kind == kernel_argument_kind.pod_ubo

/-! ## Pipeline cache -/

structure cvk_kernel_pipeline_cache_entry where
  lws0 : Nat
  lws1 : Nat
  lws2 : Nat
  pipeline : VkPipeline
  deriving DecidableEq, Repr

/-- The scan of `get_pipeline`: the pipeline of the first entry whose work-group size
is `(x, y, z)`, `VK_NULL_HANDLE` when there is none. -/
def find_pipeline (x y z : Nat) : List cvk_kernel_pipeline_cache_entry → VkPipeline
  | [] => VK_NULL_HANDLE
  | entry :: rest =>
    if entry.lws0 = x ∧ entry.lws1 = y ∧ entry.lws2 = z then entry.pipeline
    else find_pipeline x y z rest

/-- Modelled from the spec: `insert_pipeline` (header not among the sources) adds one
entry to the cache and removes none. -/
def insert_pipeline (m_entries : List cvk_kernel_pipeline_cache_entry)
    (x y z : Nat) (pipeline : VkPipeline) : List cvk_kernel_pipeline_cache_entry :=
  m_entries ++ [⟨x, y, z, pipeline⟩]

/-- The function `create_and_insert_pipeline`; `res` and `pipeline` are what
`vkCreateComputePipelines` gives back. -/
def create_and_insert_pipeline (m_entries : List cvk_kernel_pipeline_cache_entry)
    (x y z : Nat) (res : VkResult) (pipeline : VkPipeline) :
    VkPipeline × List cvk_kernel_pipeline_cache_entry :=
  if res ≠ VK_SUCCESS then (VK_NULL_HANDLE, m_entries)
  else (pipeline, insert_pipeline m_entries x y z pipeline)

/-- The function `get_pipeline`; `res` and `pipeline` are what the backend gives back if
it is asked to create a pipeline during this call. -/
def get_pipeline (m_entries : List cvk_kernel_pipeline_cache_entry)
    (x y z : Nat) (res : VkResult) (pipeline : VkPipeline) :
    VkPipeline × List cvk_kernel_pipeline_cache_entry :=
  let ret := find_pipeline x y z m_entries
  if ret = VK_NULL_HANDLE then create_and_insert_pipeline m_entries x y z res pipeline
  else (ret, m_entries)

/-- One `get_pipeline` request together with the answer the backend has ready for it. -/
structure pipeline_request where
  x : Nat
  y : Nat
  z : Nat
  res : VkResult
  pipeline : VkPipeline
  deriving DecidableEq, Repr

/-- The cache after a sequence of `get_pipeline` calls. -/
def run_requests (m_entries : List cvk_kernel_pipeline_cache_entry) :
    List pipeline_request → List cvk_kernel_pipeline_cache_entry
  | [] => m_entries
  | r :: rest => run_requests (get_pipeline m_entries r.x r.y r.z r.res r.pipeline).2 rest

/-- The work-group size and the handle returned by each call of a sequence of
`get_pipeline` calls. -/
def request_results (m_entries : List cvk_kernel_pipeline_cache_entry) :
    List pipeline_request → List ((Nat × Nat × Nat) × VkPipeline)
  | [] => []
  | r :: rest =>
    ((r.x, r.y, r.z), (get_pipeline m_entries r.x r.y r.z r.res r.pipeline).1) ::
      request_results (get_pipeline m_entries r.x r.y r.z r.res r.pipeline).2 rest

/-- The backend keeps the Vulkan contract on every request: a creation that reports
`VK_SUCCESS` yields a handle other than `VK_NULL_HANDLE`. -/
def backend_conformant (rs : List pipeline_request) : Prop :=
  ∀ r ∈ rs, r.res = VK_SUCCESS → r.pipeline ≠ VK_NULL_HANDLE

instance (rs : List pipeline_request) : Decidable (backend_conformant rs) :=
  inferInstanceAs (Decidable (∀ r ∈ rs, r.res = VK_SUCCESS → r.pipeline ≠ VK_NULL_HANDLE))

/-- The backend gives a new pipeline a handle no pipeline of the cache has: along the
sequence, a creation that reports `VK_SUCCESS` yields a handle that is not null and not
the handle of an entry already in the cache. -/
def backend_fresh (m_entries : List cvk_kernel_pipeline_cache_entry) :
    List pipeline_request → Prop
  | [] => True
  | r :: rest =>
    (r.res = VK_SUCCESS →
      r.pipeline ≠ VK_NULL_HANDLE ∧ ∀ e ∈ m_entries, e.pipeline ≠ r.pipeline) ∧
    backend_fresh (get_pipeline m_entries r.x r.y r.z r.res r.pipeline).2 rest

instance backend_fresh_decidable :
    (m_entries : List cvk_kernel_pipeline_cache_entry) → (rs : List pipeline_request) →
      Decidable (backend_fresh m_entries rs)
  | _, [] => isTrue trivial
  | m_entries, r :: rest =>
    have := backend_fresh_decidable
      (get_pipeline m_entries r.x r.y r.z r.res r.pipeline).2 rest
    inferInstanceAs (Decidable ((r.res = VK_SUCCESS →
      r.pipeline ≠ VK_NULL_HANDLE ∧ ∀ e ∈ m_entries, e.pipeline ≠ r.pipeline) ∧
      backend_fresh (get_pipeline m_entries r.x r.y r.z r.res r.pipeline).2 rest))

/-! ## Descriptor-set layout -/

structure VkDescriptorSetLayoutBinding where
  binding : Nat
  descriptorType : VkDescriptorType
  descriptorCount : Nat
  deriving DecidableEq, Repr

/-- Storage cell of one argument (`cvk_kernel_arg_storage`): `ptr` is `none` for a null
pointer and otherwise the bytes it points to. -/
structure cvk_kernel_arg_storage where
  ptr : Option (List Nat)
  size : Nat
  deriving DecidableEq, Repr

/-- Modelled from the spec: `INVALID_POD_BINDING` is declared in a header that is not
among the sources; it is the value `m_pod_binding` has while no scalar slot is known. -/
def INVALID_POD_BINDING : Nat := 4294967295

/-- The fields of `cvk_kernel` that kernel.cpp reads and writes. -/
structure cvk_kernel where
  m_args : List kernel_argument
  m_layout_bindings : List VkDescriptorSetLayoutBinding
  m_pod_descriptor_type : VkDescriptorType
  m_pod_binding : Nat
  m_pod_buffer : Option Nat
  m_args_storage : List cvk_kernel_arg_storage
  deriving DecidableEq, Repr

/-- Modelled from the spec: the constructor of `cvk_kernel` (header not among the
sources): no argument, no binding, no scalar buffer, scalar slot and type unknown. -/
def cvk_kernel.create : cvk_kernel :=
  { m_args := []
    m_layout_bindings := []
    m_pod_descriptor_type := VkDescriptorType.MAX_ENUM
    m_pod_binding := INVALID_POD_BINDING
    m_pod_buffer := none
    m_args_storage := [] }

/-- Loop state of `build_descriptor_sets_layout_bindings`. -/
structure layout_state where
  pod_found : Bool
  m_pod_descriptor_type : VkDescriptorType
  m_layout_bindings : List VkDescriptorSetLayoutBinding
  deriving DecidableEq, Repr

/-- The tail of the loop body: `m_layout_bindings.push_back(binding)`. -/
def push_binding (st : layout_state) (arg : kernel_argument) (dt : VkDescriptorType) :
    layout_state :=
  { st with m_layout_bindings := st.m_layout_bindings ++ [⟨arg.binding, dt, 1⟩] }

/-- One iteration of the loop of `build_descriptor_sets_layout_bindings`. -/
def layout_step (st : layout_state) (arg : kernel_argument) : layout_state :=
  match arg.kind with
  | .buffer => push_binding st arg VkDescriptorType.STORAGE_BUFFER
  | .ro_image => push_binding st arg VkDescriptorType.SAMPLED_IMAGE
  | .wo_image => push_binding st arg VkDescriptorType.STORAGE_IMAGE
  | .sampler => push_binding st arg VkDescriptorType.SAMPLER
  | .local_ => st
  | .pod | .pod_ubo =>
    if !st.pod_found then
      let dt :=
        if arg.kind = kernel_argument_kind.pod then VkDescriptorType.STORAGE_BUFFER
        else if arg.kind = kernel_argument_kind.pod_ubo then VkDescriptorType.UNIFORM_BUFFER
        else VkDescriptorType.MAX_ENUM
      push_binding { st with m_pod_descriptor_type := dt, pod_found := true } arg dt
    else st

/-- The function `cvk_kernel::build_descriptor_sets_layout_bindings`. -/
def build_descriptor_sets_layout_bindings (k : cvk_kernel) : cvk_kernel :=
  let st := k.m_args.foldl layout_step ⟨false, k.m_pod_descriptor_type, k.m_layout_bindings⟩
  { k with m_pod_descriptor_type := st.m_pod_descriptor_type
           m_layout_bindings := st.m_layout_bindings }

/-! ### Reference definition of the layout, after the specification -/

/-- Resource type of the slot of an argument, after the specification. -/
def spec_slot_type (arg : kernel_argument) : VkDescriptorType :=
  match arg.kind with
  | .buffer => VkDescriptorType.STORAGE_BUFFER
  | .ro_image => VkDescriptorType.SAMPLED_IMAGE
  | .wo_image => VkDescriptorType.STORAGE_IMAGE
  | .sampler => VkDescriptorType.SAMPLER
  | .pod => VkDescriptorType.STORAGE_BUFFER
  | .pod_ubo => VkDescriptorType.UNIFORM_BUFFER
  | .local_ => VkDescriptorType.MAX_ENUM

/-- After the specification: the argument at index `i` of the signature gets a slot of its
own unless it is workgroup-local or a scalar with a scalar before it. -/
def spec_has_slot (args : List kernel_argument) (i : Nat) (arg : kernel_argument) : Bool :=
  match arg.kind with
  | .local_ => false
  | .pod | .pod_ubo => !((args.take i).any kernel_argument.is_pod)
  | _ => true

/-- After the specification: the layout is the ordered list of (slot, resource type)
pairs, one per non-local, non-duplicate-scalar argument. -/
def spec_layout (args : List kernel_argument) : List VkDescriptorSetLayoutBinding :=
  (args.enum.filter (fun p => spec_has_slot args p.1 p.2)).map
    (fun p => ⟨p.2.binding, spec_slot_type p.2, 1⟩)

/-- After the specification: the resource type of the scalar slot is selected by the kind
of the first scalar argument. -/
def spec_pod_descriptor_type (args : List kernel_argument) : VkDescriptorType :=
  match args.find? kernel_argument.is_pod with
  | some arg => spec_slot_type arg
  | none => VkDescriptorType.MAX_ENUM

/-- An argument that is neither scalar nor workgroup-local. -/
def kernel_argument.is_resource (arg : kernel_argument) : Bool :=
  !arg.is_pod && arg.kind != kernel_argument_kind.local_

/-! ## Memory, effects and the state of the program -/

/-- What a descriptor is pointed at: a scalar buffer of the store, or the `cvk_mem` whose
address was read from an argument cell. -/
inductive buffer_ref
  | pod (handle : Nat)
  | arg (address : List Nat)
  deriving DecidableEq, Repr

/-- Calls kernel.cpp makes on objects it does not own. -/
inductive effect
  | retain (address : List Nat)
  | update_descriptor (ds : Nat) (dstBinding : Nat) (descriptorType : VkDescriptorType)
      (buffer : buffer_ref)
  deriving DecidableEq, Repr

/-- The kernel, the store of scalar buffers (`mem[h]` is the content of the buffer with
handle `h`) and the effects so far. -/
structure machine where
  kernel : cvk_kernel
  mem : List (List Nat)
  trace : List effect
  deriving DecidableEq, Repr

/-- The first `size` bytes at the address `value`. -/
def read_bytes (value : Nat → Nat) (size : Nat) : List Nat :=
  (List.range size).map value

/-- Modelled from the spec: `cvk_mem::copy_from` (memory.hpp is not among the sources)
copies `size` bytes to `offset` of the buffer and reports success; a copy that exceeds the
buffer's sized extent at that offset fails and copies nothing. -/
def copy_from (buf : List Nat) (value : Nat → Nat) (offset size : Nat) : Option (List Nat) :=
  if offset + size ≤ buf.length then
    some (buf.take offset ++ read_bytes value size ++ buf.drop (offset + size))
  else none

/-- The `memcpy(storage->ptr, value, n)` of `set_arg`. -/
def memcpy (dst : List Nat) (value : Nat → Nat) (n : Nat) : List Nat :=
  read_bytes value n ++ dst.drop n

/-- Modelled from the spec: `has_pod_arguments` (header not among the sources): some
argument of the kernel is a scalar. -/
def has_pod_arguments (k : cvk_kernel) : Bool :=
  k.m_args.any kernel_argument.is_pod

/-- The function `cvk_kernel::allocate_pod_buffer`; `alloc` is what `cvk_mem::create` gives back:
`none` for an error, otherwise the initial content of the new buffer, whose length is
`pod_size()`. -/
def allocate_pod_buffer (s : machine) (alloc : Option (List Nat)) : Bool × machine :=
  match alloc with
  | none => (false, s)
  | some bytes =>
    (true, { s with mem := s.mem ++ [bytes]
                    kernel := { s.kernel with m_pod_buffer := some s.mem.length } })

/-- The function `cvk_kernel::set_arg`; `value` gives the byte at each offset from the
pointer `value`.  An index outside the signature or the store, a null scalar buffer and a
`memcpy` of one byte or more to a null cell pointer are undefined behaviour. -/
def set_arg (s : machine) (index size : Nat) (value : Nat → Nat) : Option (cl_int × machine) :=
  match s.kernel.m_args[index]?, s.kernel.m_args_storage[index]? with
  | some arg, some storage =>
    if arg.is_pod then
      match s.kernel.m_pod_buffer with
      | none => none
      | some h =>
        match s.mem[h]? with
        | none => none
        | some buf =>
          match copy_from buf value arg.offset size with
          | none => some (CL_OUT_OF_RESOURCES, s)
          | some buf' => some (CL_SUCCESS, { s with mem := s.mem.set h buf' })
    else
      match storage.ptr with
      | none => if min size storage.size = 0 then some (CL_SUCCESS, s) else none
      | some bytes =>
        let storage' : cvk_kernel_arg_storage :=
          { storage with ptr := some (memcpy bytes value (min size storage.size)) }
        let m_args_storage' := s.kernel.m_args_storage.set index storage'
        some (CL_SUCCESS, { s with kernel := { s.kernel with m_args_storage := m_args_storage' } })
  | _, _ => none

/-- The loop "Setup other descriptors" of `setup_descriptor_set`, from index `i` on over
the remaining arguments; gives the return value decided by the loop and the trace. -/
def setup_other_descriptors (m_args_storage : List cvk_kernel_arg_storage) (ds : Nat) :
    Nat → List kernel_argument → List effect → Option (Bool × List effect)
  | _, [], trace => some (true, trace)
  | i, arg :: rest, trace =>
    match m_args_storage[i]? with
    | none => none
    | some storage =>
      match arg.kind with
      | .buffer =>
        match storage.ptr with
        | none => none
        | some mem =>
          setup_other_descriptors m_args_storage ds (i + 1) rest
            (trace ++ [effect.retain mem,
              effect.update_descriptor ds arg.binding VkDescriptorType.STORAGE_BUFFER
                (buffer_ref.arg mem)])
      | .pod | .pod_ubo => setup_other_descriptors m_args_storage ds (i + 1) rest trace
      | _ => some (false, trace)

/-- The function `cvk_kernel::setup_descriptor_set`.  `res` and `ds` are what
`vkAllocateDescriptorSets` gives back, `alloc` what `cvk_mem::create` gives back if it is
called, `pod_buffer` the caller's `std::unique_ptr` before the call.  The result is the
return value, the state and the caller's `pod_buffer` after the call.  Reading the scalar
buffer's Vulkan handle through a null `pod_buffer` and reading the handle of an opaque
buffer through a null cell pointer are undefined behaviour. -/
def setup_descriptor_set (s : machine) (res : VkResult) (ds : Nat) (alloc : Option (List Nat))
    (pod_buffer : Option Nat) : Option (Bool × machine × Option Nat) :=
  if res ≠ VK_SUCCESS then some (false, s, pod_buffer)
  else if has_pod_arguments s.kernel then
    let pod_buffer' := s.kernel.m_pod_buffer
    match allocate_pod_buffer { s with kernel := { s.kernel with m_pod_buffer := none } } alloc with
    | (false, s1) => some (false, s1, pod_buffer')
    | (true, s1) =>
      match pod_buffer' with
      | none => none
      | some h =>
        match setup_other_descriptors s1.kernel.m_args_storage ds 0 s1.kernel.m_args
            (s1.trace ++ [effect.update_descriptor ds s1.kernel.m_pod_binding
              s1.kernel.m_pod_descriptor_type (buffer_ref.pod h)]) with
        | none => none
        | some (ret, trace) => some (ret, { s1 with trace := trace }, pod_buffer')
  else
    match setup_other_descriptors s.kernel.m_args_storage ds 0 s.kernel.m_args s.trace with
    | none => none
    | some (ret, trace) => some (ret, { s with trace := trace }, pod_buffer)

/-! ## Initialisation -/

/-- The `std::sort` of `init`, by `pos`, as an insertion sort.  `std::sort` may order
arguments of equal position differently; when the positions are distinct the result of
every sort is the same. -/
def sort_args (args : List kernel_argument) : List kernel_argument :=
  args.insertionSort (fun a b => a.pos ≤ b.pos)

/-- The call `m_args_storage.resize(n)`: new cells have a null pointer and size 0. -/
def resize_storage (m_args_storage : List cvk_kernel_arg_storage) (n : Nat) :
    List cvk_kernel_arg_storage :=
  m_args_storage.take n ++ List.replicate (n - m_args_storage.length) ⟨none, 0⟩

/-- The loop "Create argument storage holders" of `init`: for each argument the cell at
index `arg.pos` is taken, and given `sizeof(cvk_mem*)` bytes when the argument is an opaque
buffer.  The bytes of `new char[]` are indeterminate; they are 0 here. -/
def create_storage_holders :
    List kernel_argument → List cvk_kernel_arg_storage → Option (List cvk_kernel_arg_storage)
  | [], m_args_storage => some m_args_storage
  | arg :: rest, m_args_storage =>
    if arg.pos < m_args_storage.length then
      if arg.kind = kernel_argument_kind.buffer then
        create_storage_holders rest
          (m_args_storage.set arg.pos ⟨some (List.replicate sizeof_ptr 0), sizeof_ptr⟩)
      else create_storage_holders rest m_args_storage
    else none

/-- The loop "Find out POD binding" of `init`. -/
def find_pod_binding (m_pod_binding : Nat) : List kernel_argument → Nat
  | [] => m_pod_binding
  | arg :: rest => if arg.is_pod then arg.binding else find_pod_binding m_pod_binding rest

/-- The block "Init POD arguments" of `init`: the error code it leaves `init` with
(`CL_SUCCESS` when `init` goes on) and the state. -/
def init_pod_arguments (s : machine) (alloc : Option (List Nat)) : cl_int × machine :=
  if has_pod_arguments s.kernel then
    let k1 := { s.kernel with
                m_pod_binding := find_pod_binding s.kernel.m_pod_binding s.kernel.m_args }
    if k1.m_pod_binding = INVALID_POD_BINDING then
      (CL_INVALID_PROGRAM, { s with kernel := k1 })
    else if k1.m_pod_descriptor_type = VkDescriptorType.MAX_ENUM then
      (CL_INVALID_PROGRAM, { s with kernel := k1 })
    else
      match allocate_pod_buffer { s with kernel := k1 } alloc with
      | (false, s1) => (CL_OUT_OF_RESOURCES, s1)
      | (true, s1) => (CL_SUCCESS, s1)
  else (CL_SUCCESS, s)

/-- The function `cvk_kernel::init`.  `args` is what `args_for_kernel` gives back,
`res_layout`, `res_pipeline_layout` and `res_pool` what `vkCreateDescriptorSetLayout`,
`vkCreatePipelineLayout` and `vkCreateDescriptorPool` give back, `alloc` what
`cvk_mem::create` gives back if it is called.  The Vulkan handles made on the way and the
histogram of binding types, which only feeds `vkCreateDescriptorPool`, are left out. -/
def init (s : machine) (args : Option (List kernel_argument)) (res_layout : VkResult)
    (alloc : Option (List Nat)) (res_pipeline_layout res_pool : VkResult) :
    Option (cl_int × machine) :=
  match args with
  | none => some (CL_INVALID_KERNEL_NAME, s)
  | some args =>
    let k1 := build_descriptor_sets_layout_bindings { s.kernel with m_args := sort_args args }
    if res_layout ≠ VK_SUCCESS then some (CL_INVALID_VALUE, { s with kernel := k1 })
    else
      match create_storage_holders k1.m_args
          (resize_storage k1.m_args_storage k1.m_args.length) with
      | none => none
      | some storage =>
        let after_pod := init_pod_arguments { s with kernel := { k1 with m_args_storage := storage } } alloc
        if after_pod.1 ≠ CL_SUCCESS then some after_pod
        else if res_pipeline_layout ≠ VK_SUCCESS then some (CL_INVALID_VALUE, after_pod.2)
        else if res_pool ≠ VK_SUCCESS then some (CL_INVALID_VALUE, after_pod.2)
        else some (CL_SUCCESS, after_pod.2)

/-- A program at start: a constructed kernel, no scalar buffer, no effect. -/
def machine.start : machine := ⟨cvk_kernel.create, [], []⟩

/-! ## Sequences of calls -/

/-- A call on the kernel with what the backend gives back during it.  A snapshot is taken
for a new command, whose `pod_buffer` is null before the call. -/
inductive call
  | set_arg (index size : Nat) (value : Nat → Nat)
  | snapshot (res : VkResult) (ds : Nat) (alloc : Option (List Nat))

/-- One call. -/
def step (s : machine) : call → Option machine
  | .set_arg index size value => (set_arg s index size value).map (fun r => r.2)
  | .snapshot res ds alloc => (setup_descriptor_set s res ds alloc none).map (fun r => r.2.1)

/-- The state after a sequence of calls, `none` if one of them has undefined behaviour. -/
def run (s : machine) : List call → Option machine
  | [] => some s
  | c :: rest =>
    match step s c with
    | none => none
    | some s1 => run s1 rest

/-- The bytes `l` as a value passed to `set_arg`. -/
def bytes (l : List Nat) : Nat → Nat := fun i => l.getD i 0

/-! ## Predicates on states and calls, and the inputs of the examples -/

/-- A signature of two scalars of four bytes each, at offsets 0 and 4. -/
def two_scalars : List kernel_argument :=
  [⟨0, 0, 0, kernel_argument_kind.pod⟩, ⟨1, 0, 4, kernel_argument_kind.pod⟩]

/-- The state after `init` on `two_scalars` with a scalar buffer of eight zero bytes. -/
def two_scalars_kernel : machine :=
  { kernel :=
      { m_args := two_scalars
        m_layout_bindings := [⟨0, VkDescriptorType.STORAGE_BUFFER, 1⟩]
        m_pod_descriptor_type := VkDescriptorType.STORAGE_BUFFER
        m_pod_binding := 0
        m_pod_buffer := some 0
        m_args_storage := [⟨none, 0⟩, ⟨none, 0⟩] }
    mem := [[0, 0, 0, 0, 0, 0, 0, 0]]
    trace := [] }

/-- No entry of the cache holds a null handle. -/
def cache_nonnull (c : List cvk_kernel_pipeline_cache_entry) : Prop :=
  ∀ e ∈ c, e.pipeline ≠ VK_NULL_HANDLE

/-- Entries hold no null handle, and two entries with the same handle have the same
work-group size. -/
def cache_injective (c : List cvk_kernel_pipeline_cache_entry) : Prop :=
  cache_nonnull c ∧
  ∀ e1 ∈ c, ∀ e2 ∈ c, e1.pipeline = e2.pipeline →
    (e1.lws0, e1.lws1, e1.lws2) = (e2.lws0, e2.lws1, e2.lws2)

/-- The bindings the loop of the builder adds for the arguments `args`, when `found`
tells whether a scalar slot exists already. -/
def layout_from (found : Bool) : List kernel_argument → List VkDescriptorSetLayoutBinding
  | [] => []
  | arg :: rest =>
    if arg.is_pod then
      if found then layout_from found rest
      else ⟨arg.binding, spec_slot_type arg, 1⟩ :: layout_from true rest
    else if arg.kind = kernel_argument_kind.local_ then layout_from found rest
    else ⟨arg.binding, spec_slot_type arg, 1⟩ :: layout_from found rest

/-- The kernel's scalar-buffer pointer, when not null, is the handle of a buffer of the
store. -/
def store_ok (s : machine) : Prop :=
  ∀ h, s.kernel.m_pod_buffer = some h → h < s.mem.length

/-- The buffer with handle `a` has content `content`, and it is not the kernel's current
scalar buffer. -/
def handed_out (s : machine) (a : Nat) (content : List Nat) : Prop :=
  s.mem[a]? = some content ∧ s.kernel.m_pod_buffer ≠ some a ∧ store_ok s

instance : IsTotal kernel_argument (fun a b => a.pos ≤ b.pos) :=
  ⟨fun a b => Nat.le_total a.pos b.pos⟩

instance : IsTrans kernel_argument (fun a b => a.pos ≤ b.pos) :=
  ⟨fun _ _ _ hab hbc => Nat.le_trans hab hbc⟩

theorem find_pipeline_mem (x y z : Nat) (c : List cvk_kernel_pipeline_cache_entry)
    (h : find_pipeline x y z c ≠ VK_NULL_HANDLE) :
    ∃ e ∈ c, (e.lws0 = x ∧ e.lws1 = y ∧ e.lws2 = z) ∧ e.pipeline = find_pipeline x y z c := by
  induction c with
  | nil => exact absurd rfl h
  | cons e rest ih =>
    by_cases hm : e.lws0 = x ∧ e.lws1 = y ∧ e.lws2 = z
    · exact ⟨e, List.mem_cons_self _ _, hm, by simp [find_pipeline, hm]⟩
    · have hf : find_pipeline x y z (e :: rest) = find_pipeline x y z rest := by
        simp [find_pipeline, hm]
      rw [hf] at h ⊢
      obtain ⟨e', he', hm', hp'⟩ := ih h
      exact ⟨e', List.mem_cons_of_mem _ he', hm', hp'⟩

theorem find_pipeline_append_of_found (x y z : Nat) (c : List cvk_kernel_pipeline_cache_entry)
    (e : cvk_kernel_pipeline_cache_entry) (h : find_pipeline x y z c ≠ VK_NULL_HANDLE) :
    find_pipeline x y z (c ++ [e]) = find_pipeline x y z c := by
  induction c with
  | nil => exact absurd rfl h
  | cons a rest ih =>
    by_cases hm : a.lws0 = x ∧ a.lws1 = y ∧ a.lws2 = z
    · simp [find_pipeline, hm]
    · have hf : find_pipeline x y z (a :: rest) = find_pipeline x y z rest := by
        simp [find_pipeline, hm]
      rw [hf] at h
      simp only [List.cons_append, find_pipeline, hm, if_false]
      exact ih h

theorem find_pipeline_append_of_missing (x y z : Nat) (c : List cvk_kernel_pipeline_cache_entry)
    (p : VkPipeline) (hc : cache_nonnull c) (h : find_pipeline x y z c = VK_NULL_HANDLE) :
    find_pipeline x y z (c ++ [⟨x, y, z, p⟩]) = p := by
  induction c with
  | nil => simp [find_pipeline]
  | cons a rest ih =>
    by_cases hm : a.lws0 = x ∧ a.lws1 = y ∧ a.lws2 = z
    · have : find_pipeline x y z (a :: rest) = a.pipeline := by simp [find_pipeline, hm]
      rw [this] at h
      exact absurd h (hc a (List.mem_cons_self _ _))
    · have hf : find_pipeline x y z (a :: rest) = find_pipeline x y z rest := by
        simp [find_pipeline, hm]
      rw [hf] at h
      simp only [List.cons_append, find_pipeline, hm, if_false]
      exact ih (fun e he => hc e (List.mem_cons_of_mem _ he)) h

/-- What one `get_pipeline` call does to the cache: nothing, or one entry more, which
holds the work-group size asked for and the handle the backend gave with `VK_SUCCESS`. -/
theorem get_pipeline_cases (c : List cvk_kernel_pipeline_cache_entry) (x y z : Nat)
    (res : VkResult) (pipeline : VkPipeline) :
    ((get_pipeline c x y z res pipeline).2 = c ∧
      ((get_pipeline c x y z res pipeline).1 = find_pipeline x y z c ∨
        (get_pipeline c x y z res pipeline).1 = VK_NULL_HANDLE)) ∨
    (find_pipeline x y z c = VK_NULL_HANDLE ∧ res = VK_SUCCESS ∧
      (get_pipeline c x y z res pipeline).2 = c ++ [⟨x, y, z, pipeline⟩] ∧
      (get_pipeline c x y z res pipeline).1 = pipeline) := by
  unfold get_pipeline create_and_insert_pipeline insert_pipeline
  by_cases hf : find_pipeline x y z c = VK_NULL_HANDLE
  · by_cases hr : res = VK_SUCCESS
    · right; simp [hf, hr]
    · left; simp [hf, hr]
  · left; simp [hf]

theorem get_pipeline_nonnull (c : List cvk_kernel_pipeline_cache_entry) (x y z : Nat)
    (res : VkResult) (pipeline : VkPipeline) (hc : cache_nonnull c)
    (hb : res = VK_SUCCESS → pipeline ≠ VK_NULL_HANDLE) :
    cache_nonnull (get_pipeline c x y z res pipeline).2 := by
  rcases get_pipeline_cases c x y z res pipeline with ⟨h, _⟩ | ⟨_, hr, h, _⟩
  · rw [h]; exact hc
  · rw [h]
    intro e he
    rcases List.mem_append.1 he with he | he
    · exact hc e he
    · rw [List.mem_singleton.1 he]; exact hb hr

theorem get_pipeline_keeps_found (c : List cvk_kernel_pipeline_cache_entry) (x y z a b d : Nat)
    (res : VkResult) (pipeline : VkPipeline)
    (h : find_pipeline x y z c ≠ VK_NULL_HANDLE) :
    find_pipeline x y z (get_pipeline c a b d res pipeline).2 = find_pipeline x y z c := by
  rcases get_pipeline_cases c a b d res pipeline with ⟨h1, _⟩ | ⟨_, _, h1, _⟩
  · rw [h1]
  · rw [h1]; exact find_pipeline_append_of_found x y z c _ h

theorem run_requests_nonnull (rs : List pipeline_request)
    (c : List cvk_kernel_pipeline_cache_entry) (hc : cache_nonnull c)
    (hb : backend_conformant rs) : cache_nonnull (run_requests c rs) := by
  induction rs generalizing c with
  | nil => exact hc
  | cons r rest ih =>
    exact ih _ (get_pipeline_nonnull c r.x r.y r.z r.res r.pipeline hc
      (hb r (List.mem_cons_self _ _))) (fun q hq => hb q (List.mem_cons_of_mem _ hq))

theorem run_requests_keeps_found (rs : List pipeline_request)
    (c : List cvk_kernel_pipeline_cache_entry) (x y z : Nat)
    (h : find_pipeline x y z c ≠ VK_NULL_HANDLE) :
    find_pipeline x y z (run_requests c rs) = find_pipeline x y z c := by
  induction rs generalizing c with
  | nil => rfl
  | cons r rest ih =>
    have hk := get_pipeline_keeps_found c x y z r.x r.y r.z r.res r.pipeline h
    have := ih (get_pipeline c r.x r.y r.z r.res r.pipeline).2 (by rw [hk]; exact h)
    simpa [run_requests, hk] using this

/-- After a call that returned a handle other than null, the scan finds that handle. -/
theorem get_pipeline_found_after (c : List cvk_kernel_pipeline_cache_entry) (x y z : Nat)
    (res : VkResult) (pipeline : VkPipeline) (hc : cache_nonnull c)
    (hne : (get_pipeline c x y z res pipeline).1 ≠ VK_NULL_HANDLE) :
    find_pipeline x y z (get_pipeline c x y z res pipeline).2 =
      (get_pipeline c x y z res pipeline).1 := by
  rcases get_pipeline_cases c x y z res pipeline with ⟨h2, h1 | h1⟩ | ⟨hf, _, h2, h1⟩
  · rw [h2, h1]
  · exact absurd h1 hne
  · rw [h2, h1]; exact find_pipeline_append_of_missing x y z c pipeline hc hf

theorem get_pipeline_of_found (c : List cvk_kernel_pipeline_cache_entry) (x y z : Nat)
    (res : VkResult) (pipeline : VkPipeline) (h : find_pipeline x y z c ≠ VK_NULL_HANDLE) :
    get_pipeline c x y z res pipeline = (find_pipeline x y z c, c) := by
  simp [get_pipeline, h]

/-- C6. Pipeline identity stability: on a cache built by `get_pipeline` calls against a
backend that never reports success with a null handle, once `get_pipeline x y z` has
returned a handle `p` other than null, every later `get_pipeline x y z` returns `p` and
leaves the cache as it is, whatever the backend would have answered (it is not asked),
and whatever other requests, successful or not, came in between. -/
theorem get_pipeline_identity_stable (before between : List pipeline_request)
    (x y z : Nat) (res : VkResult) (pipeline : VkPipeline)
    (res' : VkResult) (pipeline' : VkPipeline) (p : VkPipeline)
    (hbefore : backend_conformant before)
    (hp : (get_pipeline (run_requests [] before) x y z res pipeline).1 = p)
    (hne : p ≠ VK_NULL_HANDLE) :
    get_pipeline
        (run_requests (get_pipeline (run_requests [] before) x y z res pipeline).2 between)
        x y z res' pipeline' =
      (p, run_requests (get_pipeline (run_requests [] before) x y z res pipeline).2 between) := by
  have hc : cache_nonnull (run_requests [] before) :=
    run_requests_nonnull before [] (fun e he => absurd he (List.not_mem_nil e)) hbefore
  have hfound := get_pipeline_found_after (run_requests [] before) x y z res pipeline hc
    (by rw [hp]; exact hne)
  rw [hp] at hfound
  have hkeep := run_requests_keeps_found between
    (get_pipeline (run_requests [] before) x y z res pipeline).2 x y z (by rw [hfound]; exact hne)
  rw [hfound] at hkeep
  rw [get_pipeline_of_found _ x y z res' pipeline' (by rw [hkeep]; exact hne), hkeep]

theorem get_pipeline_injective (c : List cvk_kernel_pipeline_cache_entry) (x y z : Nat)
    (res : VkResult) (pipeline : VkPipeline) (hc : cache_injective c)
    (hb : res = VK_SUCCESS →
      pipeline ≠ VK_NULL_HANDLE ∧ ∀ e ∈ c, e.pipeline ≠ pipeline) :
    cache_injective (get_pipeline c x y z res pipeline).2 := by
  refine ⟨get_pipeline_nonnull c x y z res pipeline hc.1 (fun hr => (hb hr).1), ?_⟩
  rcases get_pipeline_cases c x y z res pipeline with ⟨h, _⟩ | ⟨_, hr, h, _⟩
  · rw [h]; exact hc.2
  · rw [h]
    intro e1 h1 e2 h2 heq
    rcases List.mem_append.1 h1 with h1 | h1 <;> rcases List.mem_append.1 h2 with h2 | h2
    · exact hc.2 e1 h1 e2 h2 heq
    · rw [List.mem_singleton.1 h2] at heq
      exact absurd heq ((hb hr).2 e1 h1)
    · rw [List.mem_singleton.1 h1] at heq
      exact absurd heq.symm ((hb hr).2 e2 h2)
    · rw [List.mem_singleton.1 h1, List.mem_singleton.1 h2]

theorem get_pipeline_subset (c : List cvk_kernel_pipeline_cache_entry) (x y z : Nat)
    (res : VkResult) (pipeline : VkPipeline) :
    ∀ e ∈ c, e ∈ (get_pipeline c x y z res pipeline).2 := by
  intro e he
  rcases get_pipeline_cases c x y z res pipeline with ⟨h, _⟩ | ⟨_, _, h, _⟩
  · rw [h]; exact he
  · rw [h]; exact List.mem_append_left _ he

theorem run_requests_subset (rs : List pipeline_request)
    (c : List cvk_kernel_pipeline_cache_entry) : ∀ e ∈ c, e ∈ run_requests c rs := by
  induction rs generalizing c with
  | nil => exact fun e he => he
  | cons r rest ih =>
    exact fun e he => ih _ e (get_pipeline_subset c r.x r.y r.z r.res r.pipeline e he)

theorem run_requests_injective (rs : List pipeline_request)
    (c : List cvk_kernel_pipeline_cache_entry) (hc : cache_injective c)
    (hb : backend_fresh c rs) : cache_injective (run_requests c rs) := by
  induction rs generalizing c with
  | nil => exact hc
  | cons r rest ih =>
    exact ih _ (get_pipeline_injective c r.x r.y r.z r.res r.pipeline hc hb.1) hb.2

/-- A handle other than null that a call returned is the handle of an entry of the cache
with the work-group size of the call. -/
theorem get_pipeline_entry (c : List cvk_kernel_pipeline_cache_entry) (x y z : Nat)
    (res : VkResult) (pipeline : VkPipeline)
    (hne : (get_pipeline c x y z res pipeline).1 ≠ VK_NULL_HANDLE) :
    ∃ e ∈ (get_pipeline c x y z res pipeline).2,
      (e.lws0, e.lws1, e.lws2) = (x, y, z) ∧
      e.pipeline = (get_pipeline c x y z res pipeline).1 := by
  rcases get_pipeline_cases c x y z res pipeline with ⟨h2, h1 | h1⟩ | ⟨_, _, h2, h1⟩
  · rw [h1] at hne
    obtain ⟨e, he, ⟨hx, hy, hz⟩, hp⟩ := find_pipeline_mem x y z c hne
    exact ⟨e, by rw [h2]; exact he, by rw [hx, hy, hz], by rw [h1]; exact hp⟩
  · exact absurd h1 hne
  · exact ⟨⟨x, y, z, pipeline⟩, by rw [h2]; simp, rfl, h1.symm⟩

theorem request_results_entry (rs : List pipeline_request)
    (c : List cvk_kernel_pipeline_cache_entry) (t : Nat × Nat × Nat) (p : VkPipeline)
    (h : (t, p) ∈ request_results c rs) (hne : p ≠ VK_NULL_HANDLE) :
    ∃ e ∈ run_requests c rs, (e.lws0, e.lws1, e.lws2) = t ∧ e.pipeline = p := by
  induction rs generalizing c with
  | nil => exact absurd h (List.not_mem_nil _)
  | cons r rest ih =>
    rcases List.mem_cons.1 h with h | h
    · have ht : t = (r.x, r.y, r.z) := congrArg Prod.fst h
      have hp : p = (get_pipeline c r.x r.y r.z r.res r.pipeline).1 := congrArg Prod.snd h
      obtain ⟨e, he, het, hep⟩ := get_pipeline_entry c r.x r.y r.z r.res r.pipeline
        (by rw [← hp]; exact hne)
      exact ⟨e, run_requests_subset rest _ e he, by rw [ht]; exact het, by rw [hp]; exact hep⟩
    · exact ih _ h

/-- C7 (as amended). Pipeline variant isolation: on a cache built from empty by
`get_pipeline` calls against a backend that gives every new pipeline a handle that is not
null and not the handle of a pipeline already in the cache, two calls for different
work-group sizes that both return a handle other than null return different handles. -/
theorem get_pipeline_variant_isolation (rs : List pipeline_request)
    (t1 t2 : Nat × Nat × Nat) (p1 p2 : VkPipeline)
    (hfresh : backend_fresh [] rs)
    (h1 : (t1, p1) ∈ request_results [] rs) (h2 : (t2, p2) ∈ request_results [] rs)
    (hne : t1 ≠ t2) (hp1 : p1 ≠ VK_NULL_HANDLE) (hp2 : p2 ≠ VK_NULL_HANDLE) :
    p1 ≠ p2 := by
  have hinj : cache_injective (run_requests [] rs) :=
    run_requests_injective rs []
      ⟨fun e he => absurd he (List.not_mem_nil e), fun e he => absurd he (List.not_mem_nil e)⟩
      hfresh
  obtain ⟨e1, he1, ht1, hq1⟩ := request_results_entry rs [] t1 p1 h1 hp1
  obtain ⟨e2, he2, ht2, hq2⟩ := request_results_entry rs [] t2 p2 h2 hp2
  intro heq
  apply hne
  rw [← ht1, ← ht2]
  exact hinj.2 e1 he1 e2 he2 (by rw [hq1, hq2, heq])

/-- C7 (as stated) fails: on an empty cache, with a backend that refuses both creations,
`get_pipeline 1 1 1` and `get_pipeline 2 1 1` return the same handle, `VK_NULL_HANDLE`. -/
theorem get_pipeline_variant_isolation_counterexample :
    ((1, 1, 1) : Nat × Nat × Nat) ≠ (2, 1, 1) ∧
    (get_pipeline [] 1 1 1 VK_ERROR_OUT_OF_HOST_MEMORY 0).1 =
      (get_pipeline (get_pipeline [] 1 1 1 VK_ERROR_OUT_OF_HOST_MEMORY 0).2
        2 1 1 VK_ERROR_OUT_OF_HOST_MEMORY 0).1 := by
  decide

/-- Witness of C6: a cache that holds (2,1,1), a first request of (1,1,1) that creates
pipeline 5, a failed and a successful request of other sizes, then (1,1,1) again. -/
theorem get_pipeline_identity_stable_witness :
    backend_conformant [⟨2, 1, 1, VK_SUCCESS, 7⟩] ∧
    (get_pipeline (run_requests [] [⟨2, 1, 1, VK_SUCCESS, 7⟩]) 1 1 1 VK_SUCCESS 5).1 = 5 ∧
    5 ≠ VK_NULL_HANDLE ∧
    get_pipeline
        (run_requests (get_pipeline (run_requests [] [⟨2, 1, 1, VK_SUCCESS, 7⟩])
            1 1 1 VK_SUCCESS 5).2
          [⟨3, 1, 1, VK_ERROR_OUT_OF_HOST_MEMORY, 0⟩, ⟨4, 1, 1, VK_SUCCESS, 9⟩])
        1 1 1 VK_SUCCESS 11 =
      (5, run_requests (get_pipeline (run_requests [] [⟨2, 1, 1, VK_SUCCESS, 7⟩])
            1 1 1 VK_SUCCESS 5).2
          [⟨3, 1, 1, VK_ERROR_OUT_OF_HOST_MEMORY, 0⟩, ⟨4, 1, 1, VK_SUCCESS, 9⟩]) :=
  ⟨by decide, by decide, by decide,
    get_pipeline_identity_stable [⟨2, 1, 1, VK_SUCCESS, 7⟩]
      [⟨3, 1, 1, VK_ERROR_OUT_OF_HOST_MEMORY, 0⟩, ⟨4, 1, 1, VK_SUCCESS, 9⟩]
      1 1 1 VK_SUCCESS 5 VK_SUCCESS 11 5 (by decide) (by decide) (by decide)⟩

/-- Witness of C7 (as amended): two successful requests of different sizes. -/
theorem get_pipeline_variant_isolation_witness :
    backend_fresh [] [⟨1, 1, 1, VK_SUCCESS, 5⟩, ⟨2, 1, 1, VK_SUCCESS, 6⟩] ∧
    (((1, 1, 1), 5) : (Nat × Nat × Nat) × VkPipeline) ∈
      request_results [] [⟨1, 1, 1, VK_SUCCESS, 5⟩, ⟨2, 1, 1, VK_SUCCESS, 6⟩] ∧
    (((2, 1, 1), 6) : (Nat × Nat × Nat) × VkPipeline) ∈
      request_results [] [⟨1, 1, 1, VK_SUCCESS, 5⟩, ⟨2, 1, 1, VK_SUCCESS, 6⟩] ∧
    (5 : VkPipeline) ≠ 6 :=
  ⟨by decide, by decide, by decide,
    get_pipeline_variant_isolation [⟨1, 1, 1, VK_SUCCESS, 5⟩, ⟨2, 1, 1, VK_SUCCESS, 6⟩]
      (1, 1, 1) (2, 1, 1) 5 6 (by decide) (by decide) (by decide) (by decide) (by decide)
      (by decide)⟩

/-! ## Layout builder: lemmas -/

theorem foldl_layout_step_bindings (args : List kernel_argument) (st : layout_state) :
    (args.foldl layout_step st).m_layout_bindings =
      st.m_layout_bindings ++ layout_from st.pod_found args := by
  induction args generalizing st with
  | nil => simp [layout_from]
  | cons arg rest ih =>
    rw [List.foldl_cons, ih]
    obtain ⟨pos, binding, offset, kind⟩ := arg
    obtain ⟨found, ty, bs⟩ := st
    cases kind <;> cases found <;>
      simp [layout_step, layout_from, push_binding, kernel_argument.is_pod, spec_slot_type]

theorem foldl_layout_step_type (args : List kernel_argument) (st : layout_state) :
    (args.foldl layout_step st).m_pod_descriptor_type =
      if st.pod_found then st.m_pod_descriptor_type
      else match args.find? kernel_argument.is_pod with
        | some arg => spec_slot_type arg
        | none => st.m_pod_descriptor_type := by
  induction args generalizing st with
  | nil => simp
  | cons arg rest ih =>
    rw [List.foldl_cons, ih]
    obtain ⟨pos, binding, offset, kind⟩ := arg
    obtain ⟨found, ty, bs⟩ := st
    cases kind <;> cases found <;>
      simp +decide [layout_step, push_binding, kernel_argument.is_pod, spec_slot_type,
        List.find?_cons]

theorem layout_from_eq_filter (pre rest : List kernel_argument) :
    layout_from (pre.any kernel_argument.is_pod) rest =
      ((rest.enumFrom pre.length).filter (fun p => spec_has_slot (pre ++ rest) p.1 p.2)).map
        (fun p => ⟨p.2.binding, spec_slot_type p.2, 1⟩) := by
  induction rest generalizing pre with
  | nil => simp [layout_from]
  | cons arg rest ih =>
    have hstep := ih (pre ++ [arg])
    have happ : pre ++ [arg] ++ rest = pre ++ arg :: rest := by simp
    have hlen : (pre ++ [arg]).length = pre.length + 1 := by simp
    rw [happ, hlen] at hstep
    have hany : (pre ++ [arg]).any kernel_argument.is_pod =
        (pre.any kernel_argument.is_pod || arg.is_pod) := by simp
    rw [hany] at hstep
    have htake : (pre ++ arg :: rest).take pre.length = pre := by simp
    simp only [List.enumFrom_cons, List.filter_cons, layout_from]
    by_cases hpod : arg.is_pod = true
    · have hslot : spec_has_slot (pre ++ arg :: rest) pre.length arg =
          !(pre.any kernel_argument.is_pod) := by
        obtain ⟨pos, binding, offset, kind⟩ := arg
        cases kind <;> simp_all [spec_has_slot, kernel_argument.is_pod]
      rw [hpod, Bool.or_true] at hstep
      cases hfound : pre.any kernel_argument.is_pod
      · rw [hfound] at hslot
        simp only [hpod, hslot, if_true, List.map_cons, Bool.false_eq_true, if_false,
          Bool.not_false]
        rw [hstep]
      · rw [hfound] at hslot
        simp only [hpod, hslot, if_true, Bool.false_eq_true, if_false, Bool.not_true]
        exact hstep
    · have hpod' : arg.is_pod = false := by simpa using hpod
      rw [hpod', Bool.or_false] at hstep
      by_cases hloc : arg.kind = kernel_argument_kind.local_
      · have hslot : spec_has_slot (pre ++ arg :: rest) pre.length arg = false := by
          simp [spec_has_slot, hloc]
        simp only [hpod', hslot, hloc, if_true, Bool.false_eq_true, if_false]
        exact hstep
      · have hslot : spec_has_slot (pre ++ arg :: rest) pre.length arg = true := by
          obtain ⟨pos, binding, offset, kind⟩ := arg
          cases kind <;> simp_all [spec_has_slot, kernel_argument.is_pod]
        simp only [hpod', hslot, hloc, if_true, Bool.false_eq_true, if_false, List.map_cons]
        rw [hstep]

theorem layout_from_length (found : Bool) (args : List kernel_argument) :
    (layout_from found args).length =
      (args.filter kernel_argument.is_resource).length +
        (if !found && args.any kernel_argument.is_pod then 1 else 0) := by
  induction args generalizing found with
  | nil => simp [layout_from]
  | cons arg rest ih =>
    obtain ⟨pos, binding, offset, kind⟩ := arg
    cases kind <;> cases found <;>
      simp [layout_from, kernel_argument.is_pod, kernel_argument.is_resource, ih,
        List.filter_cons] <;> omega

theorem layout_from_all_local (found : Bool) (args : List kernel_argument)
    (h : ∀ arg ∈ args, arg.kind = kernel_argument_kind.local_) : layout_from found args = [] := by
  induction args with
  | nil => rfl
  | cons arg rest ih =>
    have ha := h arg (List.mem_cons_self _ _)
    simp [layout_from, kernel_argument.is_pod, ha, ih (fun a hr => h a (List.mem_cons_of_mem _ hr))]

theorem build_layout_bindings_eq (k : cvk_kernel) :
    (build_descriptor_sets_layout_bindings k).m_layout_bindings =
      k.m_layout_bindings ++ layout_from false k.m_args := by
  simp [build_descriptor_sets_layout_bindings, foldl_layout_step_bindings]

theorem layout_from_false_eq_spec (args : List kernel_argument) :
    layout_from false args = spec_layout args := by
  have := layout_from_eq_filter [] args
  simpa [spec_layout, List.enum] using this

/-- The builder run on a newly constructed kernel with signature `args`. -/
theorem build_layout_on_create (args : List kernel_argument) :
    (build_descriptor_sets_layout_bindings
        { cvk_kernel.create with m_args := args }).m_layout_bindings = spec_layout args ∧
    (build_descriptor_sets_layout_bindings
        { cvk_kernel.create with m_args := args }).m_pod_descriptor_type =
      spec_pod_descriptor_type args := by
  refine ⟨?_, ?_⟩
  · rw [build_layout_bindings_eq]
    simp [cvk_kernel.create, layout_from_false_eq_spec]
  · simp only [build_descriptor_sets_layout_bindings, foldl_layout_step_type,
      spec_pod_descriptor_type, cvk_kernel.create]
    simp

/-- C8. The layout builder equals its reference definition: run on a newly constructed
kernel with signature `args`, it yields exactly the reference layout (in signature order
one binding, with the argument's slot, the matching type and count 1, for every argument
that is not workgroup-local and not a scalar after the first scalar) and records as the
scalar slot's type the type selected by the first scalar argument; the layout has one
entry per resource argument plus one if there is a scalar argument, and it is empty when
every argument is workgroup-local. -/
theorem build_layout_eq_reference (args : List kernel_argument) :
    (build_descriptor_sets_layout_bindings
        { cvk_kernel.create with m_args := args }).m_layout_bindings = spec_layout args ∧
    (build_descriptor_sets_layout_bindings
        { cvk_kernel.create with m_args := args }).m_pod_descriptor_type =
      spec_pod_descriptor_type args ∧
    (build_descriptor_sets_layout_bindings
        { cvk_kernel.create with m_args := args }).m_layout_bindings.length =
      (args.filter kernel_argument.is_resource).length +
        (if args.any kernel_argument.is_pod then 1 else 0) ∧
    ((∀ arg ∈ args, arg.kind = kernel_argument_kind.local_) →
      (build_descriptor_sets_layout_bindings
        { cvk_kernel.create with m_args := args }).m_layout_bindings = []) := by
  refine ⟨(build_layout_on_create args).1, (build_layout_on_create args).2, ?_, ?_⟩
  · rw [(build_layout_on_create args).1, ← layout_from_false_eq_spec, layout_from_length]
    simp
  · intro h
    rw [(build_layout_on_create args).1, ← layout_from_false_eq_spec]
    exact layout_from_all_local false args h

/-! ## `set_arg` and `setup_descriptor_set`: lemmas -/

/-- What a call of `set_arg` that has defined behaviour does: nothing, or it replaces the
content of the kernel's scalar buffer by a copy with the value written at the argument's
offset, or it rewrites the cell of the argument, keeping its size and the length of its
content when the content is as long as the size. -/
theorem set_arg_cases (s s1 : machine) (index size : Nat) (value : Nat → Nat) (err : cl_int)
    (h : set_arg s index size value = some (err, s1)) :
    (s1 = s ∧ (err = CL_OUT_OF_RESOURCES ∨
      ∃ arg, s.kernel.m_args[index]? = some arg ∧ arg.is_pod = false)) ∨
    (err = CL_SUCCESS ∧ ∃ arg hd buf buf',
      s.kernel.m_args[index]? = some arg ∧ arg.is_pod = true ∧
      s.kernel.m_pod_buffer = some hd ∧ s.mem[hd]? = some buf ∧
      copy_from buf value arg.offset size = some buf' ∧
      s1 = { s with mem := s.mem.set hd buf' }) ∨
    (err = CL_SUCCESS ∧ ∃ arg storage content,
      s.kernel.m_args[index]? = some arg ∧ arg.is_pod = false ∧
      s.kernel.m_args_storage[index]? = some storage ∧ storage.ptr = some content ∧
      s1 = { s with kernel := { s.kernel with
              m_args_storage := s.kernel.m_args_storage.set index
                ⟨some (memcpy content value (min size storage.size)), storage.size⟩ } }) := by
  unfold set_arg at h
  split at h
  · rename_i arg storage harg hstorage
    split at h
    · rename_i hpod
      split at h
      · exact absurd h (by simp)
      · rename_i hd hbuf
        split at h
        · exact absurd h (by simp)
        · rename_i buf hmem
          split at h
          · left
            simp only [Option.some.injEq, Prod.mk.injEq] at h
            exact ⟨h.2.symm, Or.inl h.1.symm⟩
          · rename_i buf' hcopy
            right; left
            simp only [Option.some.injEq, Prod.mk.injEq] at h
            exact ⟨h.1.symm, arg, hd, buf, buf', harg, hpod, hbuf, hmem, hcopy, h.2.symm⟩
    · rename_i hpod
      split at h
      · split at h
        · left
          simp only [Option.some.injEq, Prod.mk.injEq] at h
          exact ⟨h.2.symm, Or.inr ⟨arg, harg, by simpa using hpod⟩⟩
        · exact absurd h (by simp)
      · rename_i content hptr
        right; right
        simp only [Option.some.injEq, Prod.mk.injEq] at h
        exact ⟨h.1.symm, arg, storage, content, harg, by simpa using hpod, hstorage, hptr,
          h.2.symm⟩
  · exact absurd h (by simp)

/-- What a call of `setup_descriptor_set` that has defined behaviour does to the kernel
and the store. -/
theorem setup_descriptor_set_cases (s s1 : machine) (res : VkResult) (ds : Nat)
    (alloc : Option (List Nat)) (pod_buffer pod_buffer1 : Option Nat) (ret : Bool)
    (h : setup_descriptor_set s res ds alloc pod_buffer = some (ret, s1, pod_buffer1)) :
    (res ≠ VK_SUCCESS ∧ ret = false ∧ s1 = s ∧ pod_buffer1 = pod_buffer) ∨
    (res = VK_SUCCESS ∧ has_pod_arguments s.kernel = true ∧ alloc = none ∧ ret = false ∧
      s1 = { s with kernel := { s.kernel with m_pod_buffer := none } } ∧
      pod_buffer1 = s.kernel.m_pod_buffer) ∨
    (res = VK_SUCCESS ∧ has_pod_arguments s.kernel = true ∧
      ∃ content hd trace, alloc = some content ∧ s.kernel.m_pod_buffer = some hd ∧
        pod_buffer1 = some hd ∧
        setup_other_descriptors s.kernel.m_args_storage ds 0 s.kernel.m_args
          (s.trace ++ [effect.update_descriptor ds s.kernel.m_pod_binding
            s.kernel.m_pod_descriptor_type (buffer_ref.pod hd)]) = some (ret, trace) ∧
        s1 = { kernel := { s.kernel with m_pod_buffer := some s.mem.length }
               mem := s.mem ++ [content]
               trace := trace }) ∨
    (res = VK_SUCCESS ∧ has_pod_arguments s.kernel = false ∧ pod_buffer1 = pod_buffer ∧
      ∃ trace, setup_other_descriptors s.kernel.m_args_storage ds 0 s.kernel.m_args s.trace =
          some (ret, trace) ∧
        s1 = { s with trace := trace }) := by
  unfold setup_descriptor_set at h
  by_cases hres : res = VK_SUCCESS
  · simp only [hres, ne_eq, not_true_eq_false, if_false] at h
    by_cases hpod : has_pod_arguments s.kernel = true
    · simp only [hpod, if_true] at h
      cases alloc with
      | none =>
        simp only [allocate_pod_buffer, Option.some.injEq, Prod.mk.injEq] at h
        right; left
        exact ⟨hres, hpod, rfl, h.1.symm, h.2.1.symm, h.2.2.symm⟩
      | some content =>
        simp only [allocate_pod_buffer] at h
        cases hbuf : s.kernel.m_pod_buffer with
        | none => rw [hbuf] at h; exact absurd h (by simp)
        | some hd =>
          rw [hbuf] at h
          simp only at h
          split at h
          · exact absurd h (by simp)
          · rename_i ret' trace hloop
            simp only [Option.some.injEq, Prod.mk.injEq] at h
            right; right; left
            refine ⟨hres, hpod, content, hd, trace, rfl, rfl, h.2.2.symm, ?_, h.2.1.symm⟩
            rw [← h.1]; exact hloop
    · have hpod' : has_pod_arguments s.kernel = false := by simpa using hpod
      simp only [hpod', Bool.false_eq_true, if_false] at h
      split at h
      · exact absurd h (by simp)
      · rename_i ret' trace hloop
        simp only [Option.some.injEq, Prod.mk.injEq] at h
        right; right; right
        exact ⟨hres, hpod', h.2.2.symm, trace, by rw [← h.1]; exact hloop, h.2.1.symm⟩
  · left
    simp only [ne_eq, hres, not_false_eq_true, if_true, Option.some.injEq, Prod.mk.injEq] at h
    exact ⟨hres, h.1.symm, h.2.1.symm, h.2.2.symm⟩

/-- C5. Pool exhaustion is atomic: when the descriptor-set allocation inside
`setup_descriptor_set` fails, the call returns `false` and nothing has changed: the kernel
(its scalar buffer included), the store of scalar buffers and the trace of effects (no
`retain`, no descriptor write) are the same, and the caller's `pod_buffer` is untouched. -/
theorem setup_descriptor_set_allocation_failure (s : machine) (res : VkResult) (ds : Nat)
    (alloc : Option (List Nat)) (pod_buffer : Option Nat) (hres : res ≠ VK_SUCCESS) :
    setup_descriptor_set s res ds alloc pod_buffer = some (false, s, pod_buffer) := by
  simp [setup_descriptor_set, hres]

theorem step_cases (s s1 : machine) (c : call) (h : step s c = some s1) :
    (∃ index size value err, c = call.set_arg index size value ∧
      set_arg s index size value = some (err, s1)) ∨
    (∃ res ds alloc ret pod_buffer1, c = call.snapshot res ds alloc ∧
      setup_descriptor_set s res ds alloc none = some (ret, s1, pod_buffer1)) := by
  cases c with
  | set_arg index size value =>
    left
    simp only [step, Option.map_eq_some'] at h
    obtain ⟨⟨err, s'⟩, hr, hs⟩ := h
    exact ⟨index, size, value, err, rfl, by rw [hr]; simp at hs; rw [hs]⟩
  | snapshot res ds alloc =>
    right
    simp only [step, Option.map_eq_some'] at h
    obtain ⟨⟨ret, s', pb⟩, hr, hs⟩ := h
    exact ⟨res, ds, alloc, ret, pb, rfl, by rw [hr]; simp at hs; rw [hs]⟩

theorem step_store_ok (s s1 : machine) (c : call) (hok : store_ok s)
    (h : step s c = some s1) : store_ok s1 := by
  rcases step_cases s s1 c h with ⟨index, size, value, err, _, hc⟩ |
    ⟨res, ds, alloc, ret, pb1, _, hc⟩
  · rcases set_arg_cases s s1 index size value err hc with ⟨h1, _⟩ | ⟨_, _, _, _, _, _, _, _, _, _, h1⟩ |
      ⟨_, _, _, _, _, _, _, _, h1⟩
    · rw [h1]; exact hok
    · rw [h1]; intro h hh; simpa using hok h hh
    · rw [h1]; exact hok
  · rcases setup_descriptor_set_cases s s1 res ds alloc none pb1 ret hc with
      ⟨_, _, h1, _⟩ | ⟨_, _, _, _, h1, _⟩ | ⟨_, _, _, _, _, _, _, _, _, h1⟩ | ⟨_, _, _, _, _, h1⟩
    · rw [h1]; exact hok
    · rw [h1]; intro h hh; exact absurd hh (by simp)
    · rw [h1]; intro h hh
      simp only [Option.some.injEq] at hh
      simp [← hh]
    · rw [h1]; exact hok

theorem step_handed_out (s s1 : machine) (c : call) (a : Nat) (content : List Nat)
    (hout : handed_out s a content) (h : step s c = some s1) : handed_out s1 a content := by
  obtain ⟨hmem, hne, hok⟩ := hout
  refine ⟨?_, ?_, step_store_ok s s1 c hok h⟩
  · rcases step_cases s s1 c h with ⟨index, size, value, err, _, hc⟩ |
      ⟨res, ds, alloc, ret, pb1, _, hc⟩
    · rcases set_arg_cases s s1 index size value err hc with ⟨h1, _⟩ |
        ⟨_, _, hd, _, _, _, _, hbuf, _, _, h1⟩ | ⟨_, _, _, _, _, _, _, _, h1⟩
      · rw [h1]; exact hmem
      · rw [h1]
        have hda : hd ≠ a := fun e => hne (by rw [hbuf, e])
        simp only [List.getElem?_set_ne hda]
        exact hmem
      · rw [h1]; exact hmem
    · rcases setup_descriptor_set_cases s s1 res ds alloc none pb1 ret hc with
        ⟨_, _, h1, _⟩ | ⟨_, _, _, _, h1, _⟩ | ⟨_, _, _, _, _, _, _, _, _, h1⟩ | ⟨_, _, _, _, _, h1⟩
      · rw [h1]; exact hmem
      · rw [h1]; exact hmem
      · rw [h1]
        have hlt : a < s.mem.length := by
          by_contra hge
          rw [List.getElem?_eq_none (by omega)] at hmem
          exact absurd hmem (by simp)
        simp only [List.getElem?_append_left hlt]
        exact hmem
      · rw [h1]; exact hmem
  · rcases step_cases s s1 c h with ⟨index, size, value, err, _, hc⟩ |
      ⟨res, ds, alloc, ret, pb1, _, hc⟩
    · rcases set_arg_cases s s1 index size value err hc with ⟨h1, _⟩ |
        ⟨_, _, _, _, _, _, _, _, _, _, h1⟩ | ⟨_, _, _, _, _, _, _, _, h1⟩
      · rw [h1]; exact hne
      · rw [h1]; exact hne
      · rw [h1]; exact hne
    · rcases setup_descriptor_set_cases s s1 res ds alloc none pb1 ret hc with
        ⟨_, _, h1, _⟩ | ⟨_, _, _, _, h1, _⟩ | ⟨_, _, _, _, _, _, _, _, _, h1⟩ | ⟨_, _, _, _, _, h1⟩
      · rw [h1]; exact hne
      · rw [h1]; simp
      · rw [h1]
        have hlt : a < s.mem.length := by
          by_contra hge
          rw [List.getElem?_eq_none (by omega)] at hmem
          exact absurd hmem (by simp)
        simp only [ne_eq, Option.some.injEq]
        omega
      · rw [h1]; exact hne

theorem run_cons (s : machine) (c : call) (rest : List call) (s2 : machine)
    (h : run s (c :: rest) = some s2) : ∃ s1, step s c = some s1 ∧ run s1 rest = some s2 := by
  simp only [run] at h
  split at h
  · exact absurd h (by simp)
  · rename_i s1 hs; exact ⟨s1, hs, h⟩

theorem run_store_ok (calls : List call) (s s1 : machine) (hok : store_ok s)
    (h : run s calls = some s1) : store_ok s1 := by
  induction calls generalizing s with
  | nil => simp only [run, Option.some.injEq] at h; rw [← h]; exact hok
  | cons c rest ih =>
    obtain ⟨s', hs, hr⟩ := run_cons s c rest s1 h
    exact ih s' (step_store_ok s s' c hok hs) hr

theorem run_handed_out (calls : List call) (s s1 : machine) (a : Nat) (content : List Nat)
    (hout : handed_out s a content) (h : run s calls = some s1) : handed_out s1 a content := by
  induction calls generalizing s with
  | nil => simp only [run, Option.some.injEq] at h; rw [← h]; exact hout
  | cons c rest ih =>
    obtain ⟨s', hs, hr⟩ := run_cons s c rest s1 h
    exact ih s' (step_handed_out s s' c a content hout hs) hr

/-- What the block "Init POD arguments" does: it changes at most the scalar slot, the
scalar buffer and the store, and when it lets `init` go on, a kernel with scalar arguments
has a new scalar buffer. -/
theorem init_pod_arguments_cases (s : machine) (alloc : Option (List Nat)) :
    (init_pod_arguments s alloc).2.trace = s.trace ∧
    (init_pod_arguments s alloc).2.kernel.m_args = s.kernel.m_args ∧
    (init_pod_arguments s alloc).2.kernel.m_args_storage = s.kernel.m_args_storage ∧
    (init_pod_arguments s alloc).2.kernel.m_layout_bindings = s.kernel.m_layout_bindings ∧
    (init_pod_arguments s alloc).2.kernel.m_pod_descriptor_type =
      s.kernel.m_pod_descriptor_type ∧
    (((init_pod_arguments s alloc).2.mem = s.mem ∧
        (init_pod_arguments s alloc).2.kernel.m_pod_buffer = s.kernel.m_pod_buffer ∧
        ((init_pod_arguments s alloc).1 = CL_SUCCESS → has_pod_arguments s.kernel = false)) ∨
      (∃ content, alloc = some content ∧ has_pod_arguments s.kernel = true ∧
        (init_pod_arguments s alloc).2.mem = s.mem ++ [content] ∧
        (init_pod_arguments s alloc).2.kernel.m_pod_buffer = some s.mem.length)) := by
  unfold init_pod_arguments
  by_cases hpod : has_pod_arguments s.kernel = true
  · simp only [hpod, if_true]
    split_ifs
    · simp [CL_INVALID_PROGRAM, CL_SUCCESS]
    · simp [CL_INVALID_PROGRAM, CL_SUCCESS]
    · cases alloc with
      | none => simp [allocate_pod_buffer, CL_OUT_OF_RESOURCES, CL_SUCCESS]
      | some content => simp [allocate_pod_buffer]
  · simp [hpod]

theorem init_store_ok (args : Option (List kernel_argument)) (res_layout : VkResult)
    (alloc : Option (List Nat)) (res_pipeline_layout res_pool : VkResult) (code : cl_int)
    (s : machine)
    (h : init machine.start args res_layout alloc res_pipeline_layout res_pool =
      some (code, s)) : store_ok s := by
  unfold init at h
  cases args with
  | none =>
    simp only [Option.some.injEq, Prod.mk.injEq] at h
    rw [← h.2]; intro hd hh; simp [machine.start, cvk_kernel.create] at hh
  | some args =>
    simp only at h
    split at h
    · simp only [Option.some.injEq, Prod.mk.injEq] at h
      rw [← h.2]; intro hd hh
      simp [machine.start, cvk_kernel.create, build_descriptor_sets_layout_bindings] at hh
    · split at h
      · exact absurd h (by simp)
      · rename_i storage hstorage
        generalize hs0 : (⟨{ build_descriptor_sets_layout_bindings
          { machine.start.kernel with m_args := sort_args args } with m_args_storage := storage },
          machine.start.mem, machine.start.trace⟩ : machine) = sinit at h
        have hc := init_pod_arguments_cases sinit alloc
        have hs : s = (init_pod_arguments sinit alloc).2 := by
          split_ifs at h <;> simp only [Option.some.injEq] at h
          · rw [h]
          · exact (congrArg Prod.snd h).symm
          · exact (congrArg Prod.snd h).symm
          · exact (congrArg Prod.snd h).symm
        rw [← hs] at hc
        obtain ⟨_, _, _, _, _, hrest⟩ := hc
        subst hs0
        intro hd hh
        rcases hrest with ⟨h1, h2, _⟩ | ⟨content, _, _, h3, h4⟩
        · rw [h2] at hh
          simp [machine.start, cvk_kernel.create, build_descriptor_sets_layout_bindings] at hh
        · rw [h4] at hh
          simp only [Option.some.injEq] at hh
          rw [h3, ← hh]; simp

/-- C2. Buffer-swap isolation: take a kernel with scalar arguments, in any state reached
from `init` by `set_arg` and `setup_descriptor_set` calls.  When a `setup_descriptor_set`
that returns `true` hands out the scalar buffer `a`, then after any further sequence of
`set_arg` and `setup_descriptor_set` calls the content of `a` is what it was when handed
out, and the kernel's current scalar buffer is not `a`. -/
theorem handed_out_buffer_isolated (args : Option (List kernel_argument))
    (res_layout : VkResult) (alloc0 : Option (List Nat)) (res_pipeline_layout res_pool : VkResult)
    (code : cl_int) (s0 s s1 s2 : machine) (before after : List call)
    (res : VkResult) (ds : Nat) (alloc : Option (List Nat)) (pod_buffer : Option Nat) (a : Nat)
    (hinit : init machine.start args res_layout alloc0 res_pipeline_layout res_pool =
      some (code, s0))
    (hbefore : run s0 before = some s)
    (hpod : has_pod_arguments s.kernel = true)
    (hsnap : setup_descriptor_set s res ds alloc pod_buffer = some (true, s1, some a))
    (hafter : run s1 after = some s2) :
    (∃ content, s1.mem[a]? = some content ∧ s2.mem[a]? = some content) ∧
    s1.kernel.m_pod_buffer ≠ some a ∧ s2.kernel.m_pod_buffer ≠ some a := by
  have hok : store_ok s := run_store_ok before s0 s (init_store_ok _ _ _ _ _ _ _ hinit) hbefore
  rcases setup_descriptor_set_cases s s1 res ds alloc pod_buffer (some a) true hsnap with
    ⟨_, h, _⟩ | ⟨_, _, _, h, _⟩ | ⟨_, _, content, hd, trace, _, hbuf, hpb, _, h1⟩ | ⟨_, h, _⟩
  · exact absurd h (by simp)
  · exact absurd h (by simp)
  · simp only [Option.some.injEq] at hpb
    subst hpb
    have hlt : a < s.mem.length := hok a hbuf
    have hsome : ∃ c, s.mem[a]? = some c := ⟨s.mem[a], List.getElem?_eq_getElem hlt⟩
    obtain ⟨c, hc⟩ := hsome
    have hout : handed_out s1 a c := by
      refine ⟨?_, ?_, ?_⟩
      · rw [h1]; simp only [List.getElem?_append_left hlt]; exact hc
      · rw [h1]; simp only [ne_eq, Option.some.injEq]; omega
      · rw [h1]; intro hd hh
        simp only [Option.some.injEq] at hh
        simp [← hh]
    have hout2 := run_handed_out after s1 s2 a c hout hafter
    exact ⟨⟨c, hout.1, hout2.1⟩, hout.2.1, hout2.2.1⟩
  · rw [hpod] at h; exact absurd h (by simp)

/-- Witness of C2: buffer 0 is handed out, then arguments are set and a second snapshot is
taken. -/
theorem handed_out_buffer_isolated_witness :
    ∃ s s1 s2,
      init machine.start (some two_scalars) VK_SUCCESS (some [0, 0, 0, 0, 0, 0, 0, 0])
        VK_SUCCESS VK_SUCCESS = some (CL_SUCCESS, two_scalars_kernel) ∧
      run two_scalars_kernel [call.set_arg 0 4 (bytes [1, 2, 3, 4])] = some s ∧
      has_pod_arguments s.kernel = true ∧
      setup_descriptor_set s VK_SUCCESS 1 (some [0, 0, 0, 0, 0, 0, 0, 0]) none =
        some (true, s1, some 0) ∧
      run s1 [call.set_arg 0 4 (bytes [7, 7, 7, 7]),
        call.snapshot VK_SUCCESS 2 (some [0, 0, 0, 0, 0, 0, 0, 0]),
        call.set_arg 1 4 (bytes [8, 8, 8, 8])] = some s2 ∧
      (∃ content, s1.mem[0]? = some content ∧ s2.mem[0]? = some content) ∧
      s1.kernel.m_pod_buffer ≠ some 0 ∧ s2.kernel.m_pod_buffer ≠ some 0 :=
  ⟨_, _, _, by decide, rfl, rfl, rfl, rfl,
    handed_out_buffer_isolated (some two_scalars) VK_SUCCESS (some [0, 0, 0, 0, 0, 0, 0, 0])
      VK_SUCCESS VK_SUCCESS CL_SUCCESS two_scalars_kernel _ _ _
      [call.set_arg 0 4 (bytes [1, 2, 3, 4])]
      [call.set_arg 0 4 (bytes [7, 7, 7, 7]),
        call.snapshot VK_SUCCESS 2 (some [0, 0, 0, 0, 0, 0, 0, 0]),
        call.set_arg 1 4 (bytes [8, 8, 8, 8])]
      VK_SUCCESS 1 (some [0, 0, 0, 0, 0, 0, 0, 0]) none 0 (by decide) rfl rfl rfl rfl⟩

/-- C3. The code does not do what the claim says: on a kernel with two scalars of four
bytes at offsets 0 and 4, `set_arg` on argument 0 with size 8, more than its extent,
returns `CL_SUCCESS` and overwrites the bytes 4 to 7, which belong to argument 1. -/
theorem set_arg_oversized_scalar_overwrites :
    init machine.start (some two_scalars) VK_SUCCESS (some [0, 0, 0, 0, 0, 0, 0, 0])
      VK_SUCCESS VK_SUCCESS = some (CL_SUCCESS, two_scalars_kernel) ∧
    two_scalars_kernel.mem[0]? = some [0, 0, 0, 0, 0, 0, 0, 0] ∧
    ∃ s1, set_arg two_scalars_kernel 0 8 (bytes [1, 2, 3, 4, 5, 6, 7, 8]) =
        some (CL_SUCCESS, s1) ∧
      s1.mem[0]? = some [1, 2, 3, 4, 5, 6, 7, 8] :=
  ⟨by decide, rfl, _, rfl, rfl⟩

/-- C4. The code does not do what the claim says: when the descriptor-set allocation
succeeds and the allocation of the replacement buffer fails, `setup_descriptor_set`
returns `false` with the kernel's scalar buffer moved out to the caller and nothing in its
place (`m_pod_buffer` is null), and the next `set_arg` on a scalar dereferences the null
pointer. -/
theorem setup_descriptor_set_replacement_failure :
    init machine.start (some two_scalars) VK_SUCCESS (some [0, 0, 0, 0, 0, 0, 0, 0])
      VK_SUCCESS VK_SUCCESS = some (CL_SUCCESS, two_scalars_kernel) ∧
    two_scalars_kernel.kernel.m_pod_buffer = some 0 ∧
    ∃ s1, setup_descriptor_set two_scalars_kernel VK_SUCCESS 1 none none =
        some (false, s1, some 0) ∧
      s1.kernel.m_pod_buffer = none ∧
      set_arg s1 0 4 (bytes [1, 2, 3, 4]) = none :=
  ⟨by decide, rfl, _, rfl, rfl, rfl⟩

/-- Witness of C5: the descriptor pool is exhausted. -/
theorem setup_descriptor_set_allocation_failure_witness :
    VK_ERROR_OUT_OF_POOL_MEMORY ≠ VK_SUCCESS ∧
    setup_descriptor_set two_scalars_kernel VK_ERROR_OUT_OF_POOL_MEMORY 0
      (some [0, 0, 0, 0, 0, 0, 0, 0]) none = some (false, two_scalars_kernel, none) :=
  ⟨by decide, setup_descriptor_set_allocation_failure two_scalars_kernel
    VK_ERROR_OUT_OF_POOL_MEMORY 0 (some [0, 0, 0, 0, 0, 0, 0, 0]) none (by decide)⟩

end Clvk
